import Mathlib

/-!
A shallow embedding of the streaming equi-join node
(`crates/polars-stream/src/nodes/joins/equi_join.rs`) together with proofs
about its behaviour. Pure fragments of the Rust source are translated into
executable Lean functions; external collaborators (index table, cardinality
sketch, expression evaluator, sort primitive, channels) appear as
universally-quantified oracle inputs. Machine integers (`usize`, `u64`,
`IdxSize`) are modelled as `Nat`: all quantities involved (row counts, morsel
sequence numbers) are nonnegative and the source checks its only potentially
overflowing addition (`checked_add`).
-/

/-- Column names (`PlSmallStr` in the source). -/
abbrev PlSmallStr := String

/-- A schema, reduced to its ordered list of column names. Data types play no
role in any of the properties proved here, so `Schema` keeps only what
`iter_names`, `contains` and `get_at_index` observe. -/
abbrev Schema := List PlSmallStr

/-!
Morsel sequence numbers (`MorselSeq`) live in the external
`polars-stream/src/morsel.rs`, not in the repository slice. The spec (§3)
describes them as monotonically generated identifiers with a successor
operation and an offset operation; they are modelled from the spec as plain
`Nat` with `seqSuccessor` and `seqOffsetBy` below.
-/

/-- Modelled from the spec: `MorselSeq::successor`, the sequence id directly
after the given one. -/
def seqSuccessor (s : Nat) : Nat := s + 1

/-- Modelled from the spec: `MorselSeq::offset_by`, offsetting a sequence id
by another. -/
def seqOffsetBy (s offset : Nat) : Nat := s + offset

/-- Join type (`JoinType` from the external polars-ops crate; the spec §6
restricts `how` to these four variants for this node). -/
inductive JoinType where
  | Inner
  | Left
  | Right
  | Full
deriving DecidableEq

/-- Maintain-order mode (`MaintainOrderJoin` from the external polars-ops
crate, spec §6). -/
inductive MaintainOrderJoin where
  | None
  | Left
  | Right
  | LeftRight
  | RightLeft
deriving DecidableEq

/-- Modelled from the spec: `JoinArgs` lives in the external polars-ops
crate. The spec (§6) gives `args = { how, suffix: string, coalesce: bool,
nulls_equal, maintain_order }`; `args.suffix()` defaults to `"_right"`, which
callers here pass explicitly. -/
structure JoinArgs where
  how : JoinType
  suffix : PlSmallStr
  coalesce : Bool
  nulls_equal : Bool
  maintain_order : MaintainOrderJoin
deriving DecidableEq

/-- Modelled from the spec: `JoinArgs::should_coalesce` (external crate); the
spec treats coalescing as a boolean of the arguments. -/
def JoinArgs.should_coalesce (args : JoinArgs) : Bool := args.coalesce

/-- Error kinds produced by the node itself. The only fallible path in the
source is the `polars_bail!(Duplicate: ...)` in `compute_payload_selector`;
we record the offending suffixed name. -/
inductive PolarsError where
  | Duplicate (name : PlSmallStr)
deriving DecidableEq

/-- Per-column body of `compute_payload_selector` (the closure of the
`map` at `equi_join.rs:53-77`): decides whether column `c` at position `i`
of `this` is kept in the payload and under which name. -/
def cps_col (other this_key_schema : Schema) ( is_left : Bool) (args : JoinArgs)
    (c : PlSmallStr) (i : Nat) : Except PolarsError (Option PlSmallStr) :=
  if args.should_coalesce && this_key_schema.contains c then
    if is_left != (args.how == JoinType.Right) then
      .ok (some c)
    else if args.how == JoinType.Full then
      -- We must keep the right-hand side keycols around for coalescing.
      .ok (some ("__POLARS_COALESCE_KEYCOL" ++ toString i))
    else
      .ok none
  else if !(other.contains c) || is_left then
    .ok (some c)
  else
    let suffixed := c ++ args.suffix
    if other.contains suffixed then
      .error (PolarsError.Duplicate suffixed)
    else
      .ok (some suffixed)

/-- The enumerated, error-short-circuiting traversal of `this`'s columns
(the `iter_names().enumerate().map(...).collect()` at `equi_join.rs:51-78`). -/
def cps_go (other this_key_schema : Schema) ( is_left : Bool) (args : JoinArgs) :
    List PlSmallStr → Nat → Except PolarsError (List (Option PlSmallStr))
  | [], _ => .ok []
  | c :: rest, i =>
    match cps_col other this_key_schema is_left args c i with
    | .error e => .error e
    | .ok sel =>
      match cps_go other this_key_schema is_left args rest (i + 1) with
      | .error e => .error e
      | .ok sels => .ok (sel :: sels)

/-- `compute_payload_selector` (`equi_join.rs:42-79`): for each column of
`this`, whether it is included in the payload and with what name. -/
def compute_payload_selector (this other this_key_schema : Schema) ( is_left : Bool)
    (args : JoinArgs) : Except PolarsError (List (Option PlSmallStr)) :=
  cps_go other this_key_schema is_left args this 0

/-- `select_schema` (`equi_join.rs:111-117`): keep the fields selected by the
selector, renamed accordingly. -/
def select_schema (schema : Schema) (selector : List (Option PlSmallStr)) : Schema :=
  (schema.zip selector).filterMap fun f => f.2

/-- The parameter block of the node (`EquiJoinParams`, `equi_join.rs:986-1000`).
The expression selectors and the random state belong to external collaborators
and are omitted; every field read by the logic modelled here is present. -/
structure EquiJoinParams where
  left_is_build : Option Bool
  preserve_order_build : Bool
  preserve_order_probe : Bool
  left_key_schema : Schema
  right_key_schema : Schema
  left_payload_select : List (Option PlSmallStr)
  right_payload_select : List (Option PlSmallStr)
  left_payload_schema : Schema
  right_payload_schema : Schema
  args : JoinArgs
deriving DecidableEq

/-- `EquiJoinParams::emit_unmatched_build` (`equi_join.rs:1004-1010`). -/
def emit_unmatched_build (params : EquiJoinParams) : Bool :=
  if params.left_is_build.get! then
    params.args.how == JoinType.Left || params.args.how == JoinType.Full
  else
    params.args.how == JoinType.Right || params.args.how == JoinType.Full

/-- `EquiJoinParams::emit_unmatched_probe` (`equi_join.rs:1013-1019`). -/
def emit_unmatched_probe (params : EquiJoinParams) : Bool :=
  if params.left_is_build.get! then
    params.args.how == JoinType.Right || params.args.how == JoinType.Full
  else
    params.args.how == JoinType.Left || params.args.how == JoinType.Full

/-- Result of a successful `EquiJoinNode::new` (`equi_join.rs:1030-1108`):
the computed parameter block plus whether the node starts in the `Build`
state (`left_is_build.is_some()`) rather than `Sample`. -/
structure EquiJoinInit where
  params : EquiJoinParams
  starts_in_build : Bool
deriving DecidableEq

/-- `EquiJoinNode::new` (`equi_join.rs:1030-1108`). `sample_limit` stands for
the process-wide `*SAMPLE_LIMIT` (default 10,000,000,
environment-overridable), treated as injected per the spec (§9). The
`ChunkedIdxTable` factory call is an external collaborator and is omitted:
it cannot fail and its result is not observed by any property here. -/
def equi_join_node_new (left_input_schema right_input_schema : Schema)
    (left_key_schema right_key_schema : Schema) (args : JoinArgs)
    (sample_limit : Nat) : Except PolarsError EquiJoinInit :=
  let left_is_build : Option Bool :=
    match args.maintain_order with
    | MaintainOrderJoin.None => if sample_limit = 0 then some true else none
    | MaintainOrderJoin.Left | MaintainOrderJoin.LeftRight => some false
    | MaintainOrderJoin.Right | MaintainOrderJoin.RightLeft => some true
  let preserve_order_probe := args.maintain_order != MaintainOrderJoin.None
  let preserve_order_build :=
    args.maintain_order == MaintainOrderJoin.LeftRight ||
      args.maintain_order == MaintainOrderJoin.RightLeft
  match compute_payload_selector left_input_schema right_input_schema left_key_schema true args with
  | .error e => .error e
  | .ok left_payload_select =>
    match compute_payload_selector right_input_schema left_input_schema right_key_schema false args with
    | .error e => .error e
    | .ok right_payload_select =>
      .ok
        { params :=
            { left_is_build
              preserve_order_build
              preserve_order_probe
              left_key_schema
              right_key_schema
              left_payload_select
              right_payload_select
              left_payload_schema := select_schema left_input_schema left_payload_select
              right_payload_schema := select_schema right_input_schema right_payload_select
              args }
          starts_in_build := left_is_build.isSome }

/-- Lookup of a column by name (`DataFrame::column`); a dataframe is modelled
for `postprocess_join` as a list of named columns with data of any type `α`. -/
def df_column (α : Type) (df : List (PlSmallStr × α)) (name : PlSmallStr) :
    Option (PlSmallStr × α) :=
  df.find? fun c => c.1 == name

/-- The stateful `filter_map` inside `postprocess_join` (`equi_join.rs:86-105`):
walks the columns carrying the running `key_idx`; `cf` is the external
`coalesce_columns` collaborator (first-non-null merge of the two columns'
data, named after the first). -/
def coalesce_loop (α : Type) [Inhabited α] (cf : α → α → α) (left_key_schema : Schema)
    (df : List (PlSmallStr × α)) :
    List (PlSmallStr × α) → Nat → List (PlSmallStr × α)
  | [], _ => []
  | c :: rest, key_idx =>
    match left_key_schema.get? key_idx with
    | some key_name =>
      if c.1 = key_name then
        let other := (df_column α df ("__POLARS_COALESCE_KEYCOL" ++ toString key_idx)).get!
        (c.1, cf c.2 other.2) :: coalesce_loop α cf left_key_schema df rest (key_idx + 1)
      else if String.startsWith c.1 "__POLARS_COALESCE_KEYCOL" then
        coalesce_loop α cf left_key_schema df rest key_idx
      else
        c :: coalesce_loop α cf left_key_schema df rest key_idx
    | none =>
      if String.startsWith c.1 "__POLARS_COALESCE_KEYCOL" then
        coalesce_loop α cf left_key_schema df rest key_idx
      else
        c :: coalesce_loop α cf left_key_schema df rest key_idx

/-- `postprocess_join` (`equi_join.rs:82-109`): fixes names and coalesces
columns post-join; only a coalescing `Full` join does any work. -/
def postprocess_join (α : Type) [Inhabited α] (cf : α → α → α)
    (df : List (PlSmallStr × α)) (params : EquiJoinParams) : List (PlSmallStr × α) :=
  if params.args.how = JoinType.Full ∧ params.args.should_coalesce = true then
    coalesce_loop α cf params.left_key_schema df df 0
  else
    df

/-- `LOPSIDED_SAMPLE_FACTOR` (`equi_join.rs:38`): if one side is this much
bigger than the other the smaller side is always the build side. -/
def LOPSIDED_SAMPLE_FACTOR : Nat := 10

/-- The normalization factor of `SampleState::try_transition_to_build`
(`equi_join.rs:349-351`): `len.min(sample_limit) as f64 / len as f64`. The
`f64` arithmetic of the source is modelled exactly over `ℚ` (`0/0` yields `0`
here where the source yields `NaN`; the subsequent `as usize` maps `NaN` to
`0` as well, so the composed functions agree). -/
def norm_factor (len sample_limit : Nat) : ℚ :=
  ((min len sample_limit : Nat) : ℚ) / (len : ℚ)

/-- The normalized cardinality estimate (`equi_join.rs:352-353`):
`(cardinality as f64 * norm_factor) as usize`. -/
def norm_cardinality (estimate len sample_limit : Nat) : Nat :=
  Int.toNat ⌊(estimate : ℚ) * norm_factor len sample_limit⌋

/-- Modelled from the spec: the normalization the spec claims — scaling the
raw sketch estimate by `true_len / min(true_len, SAMPLE_LIMIT)` so the sample
is extrapolated upwards. Stated only to be compared against
`norm_cardinality`, which is what the source computes. -/
def claimed_norm_cardinality (estimate len sample_limit : Nat) : Nat :=
  Int.toNat ⌊(estimate : ℚ) * ((len : ℚ) / ((min len sample_limit : Nat) : ℚ))⌋

/-- The build-side choice of `SampleState::try_transition_to_build`
(`equi_join.rs:360-392`), with the raw sketch outputs `lc_raw`, `rc_raw`
(produced by the external `CardinalitySketch` over the buffered morsels)
taken as inputs; `estimate_cardinalities` normalizes them per
`norm_cardinality`. -/
def left_is_build_decision (left_len right_len lc_raw rc_raw sample_limit : Nat) : Bool :=
  let left_saturated := sample_limit ≤ left_len
  let right_saturated := sample_limit ≤ right_len
  if ¬left_saturated ∧ ¬right_saturated then
    if left_len * LOPSIDED_SAMPLE_FACTOR < right_len ∨
        right_len * LOPSIDED_SAMPLE_FACTOR < left_len then
      -- Don't bother estimating cardinality, just choose smaller as it's
      -- highly imbalanced.
      left_len < right_len
    else
      let lc := norm_cardinality lc_raw left_len sample_limit
      let rc := norm_cardinality rc_raw right_len sample_limit
      let left_build_cost := left_len * 3 + 3 * lc
      let left_probe_cost := left_len
      let right_build_cost := right_len * 3 + 3 * rc
      let right_probe_cost := right_len
      left_build_cost + right_probe_cost < left_probe_cost + right_build_cost
  else if ¬left_saturated ∧ right_saturated then
    -- Choose the unsaturated side, the saturated side could be arbitrarily big.
    true
  else if left_saturated ∧ ¬right_saturated then
    false
  else
    -- Estimate cardinality and choose smaller.
    norm_cardinality lc_raw left_len sample_limit <
      norm_cardinality rc_raw right_len sample_limit

/-- Sampled state as observed by `update_state`: the running row counts and
the number of buffered morsels per side (`SampleState`, `equi_join.rs:275-281`). -/
structure SampleS where
  left_len : Nat
  right_len : Nat
  left_nmorsels : Nat
  right_nmorsels : Nat
deriving DecidableEq

/-- Port state of the scheduling runtime (`PortState` from the external
compute-node prelude): the three-valued readiness flag exchanged with the
scheduler in `update_state`. -/
inductive PortState where
  | Ready
  | Blocked
  | Done
deriving DecidableEq

/-- The `stop_sampling` condition of `try_transition_to_build`
(`equi_join.rs:316-323`). -/
def stop_sampling (s : SampleS) (recv0 recv1 : PortState) (sample_limit : Nat) : Bool :=
  let left_saturated := sample_limit ≤ s.left_len
  let right_saturated := sample_limit ≤ s.right_len
  let left_done := recv0 = PortState.Done ∨ left_saturated
  let right_done := recv1 = PortState.Done ∨ right_saturated
  (left_done ∧ right_done) ∨
    (left_done ∧ LOPSIDED_SAMPLE_FACTOR * s.left_len ≤ s.right_len) ∨
    (right_done ∧ LOPSIDED_SAMPLE_FACTOR * s.right_len ≤ s.left_len)

/-- `BufferedStream::new` (`equi_join.rs:177-191`): relabel the buffered
morsels with consecutive sequence numbers from `start_offset` and record the
successor of the last assigned one as `post_buffer_offset`. Morsel contents
are any type `α`; the result pairs the relabeled queue with
`post_buffer_offset`. -/
def buffered_stream_new (α : Type) (morsels : List α) (start_offset : Nat) :
    List (α × Nat) × Nat :=
  match morsels with
  | [] => ([], start_offset)
  | m :: rest =>
    let r := buffered_stream_new α rest (seqSuccessor start_offset)
    ((m, start_offset) :: r.1, r.2)

/-- The relabeling a downstream morsel undergoes in `BufferedStream::reinsert`
(`equi_join.rs:242`): `morsel.set_seq(morsel.seq().offset_by(self.post_buffer_offset))`. -/
def reinsert_downstream_seq (post_buffer_offset s : Nat) : Nat :=
  seqOffsetBy s post_buffer_offset

/-- A build-side payload frame, reduced to what the finalize logic observes:
its schema and its height. -/
structure Frame where
  schema : Schema
  height : Nat
deriving DecidableEq

/-- `DataFrame::empty_with_schema`. -/
def empty_frame_with_schema (s : Schema) : Frame := ⟨s, 0⟩

/-- `accumulate_dataframes_vertical_unchecked` on a non-empty list: the
vertical concatenation keeps the first frame's schema and sums the heights.
(The source never calls it on an empty list; the `[]` case is a dummy.) -/
def accumulate_frames : List Frame → Frame
  | [] => ⟨[], 0⟩
  | f :: rest => ⟨f.schema, f.height + (rest.map fun g => g.height).sum⟩

/-- One `(worker, partition)` bucket (`BuildPartition`, `equi_join.rs:460-464`)
with hash-key chunks of any type `κ` (the external `HashKeys`); the sketch is
only fed to `table.reserve` and is omitted. -/
structure BuildPartitionM (κ : Type) where
  hash_keys : List κ
  frames : List (Nat × Frame)

/-- The per-partition result of `BuildState::finalize` (`ProbeTable`,
`equi_join.rs:621-627`). `inserted_keys` records the key chunks passed to
`table.insert_key_chunk` in order; `combined_frames` the frames appended
alongside them (the source concatenates them into `df` immediately). -/
structure ProbeTableM (κ : Type) where
  inserted_keys : List κ
  combined_frames : List Frame
  df : Frame
  chunk_seq_ids : List Nat

/-- The build-side payload schema (`equi_join.rs:595-600`). -/
def build_payload_schema (params : EquiJoinParams) : Schema :=
  if params.left_is_build.get! then params.left_payload_schema
  else params.right_payload_schema

/-- The key order used when inserting in origin-seq order: comparison of the
`(seq, hash_keys, frame)` triples by their `seq` component. -/
def seq_key_le (κ : Type) (a b : Nat × κ × Frame) : Prop := a.1 ≤ b.1

instance seq_key_le_dec (κ : Type) : DecidableRel (seq_key_le κ) := fun a b => by
  unfold seq_key_le; infer_instance

instance seq_key_le_total (κ : Type) : IsTotal (Nat × κ × Frame) (seq_key_le κ) :=
  ⟨fun a b => Nat.le_total a.1 b.1⟩

instance seq_key_le_trans (κ : Type) : IsTrans (Nat × κ × Frame) (seq_key_le κ) :=
  ⟨fun _ _ _ hab hbc => Nat.le_trans hab hbc⟩

/-- The per-partition body of `BuildState::finalize` (`equi_join.rs:542-609`),
given this partition's buckets gathered from all workers. `table.reserve`
and the sketch combination only tune allocation and are omitted.
`sort_unstable_by_key(|c| c.0)` is modelled by `insertionSort` on the
`seq_key_le` order — an admissible result of the unstable sort (origin seqs
of distinct workers' frames are distinct, so all sorts by this key agree). -/
def finalize_partition (κ : Type) (params : EquiJoinParams)
    (results : List (BuildPartitionM κ)) : ProbeTableM κ :=
  if params.preserve_order_build then
    let combined := results.flatMap fun r =>
      (r.hash_keys.zip r.frames).map fun x => (x.2.1, x.1, x.2.2)
    let sorted := List.insertionSort (seq_key_le κ) combined
    -- Zero-sized chunks can get deleted, so skip entirely to avoid messing
    -- up the chunk counter.
    let inserted := sorted.filter fun t => t.2.2.height != 0
    { inserted_keys := inserted.map fun t => t.2.1
      combined_frames := inserted.map fun t => t.2.2
      df :=
        if inserted.isEmpty then empty_frame_with_schema (build_payload_schema params)
        else accumulate_frames (inserted.map fun t => t.2.2)
      chunk_seq_ids := inserted.map fun t => t.1 }
  else
    let pairs := results.flatMap fun r => r.hash_keys.zip r.frames
    let inserted := pairs.filter fun x => x.2.2.height != 0
    { inserted_keys := inserted.map fun x => x.1
      combined_frames := inserted.map fun x => x.2.2
      df :=
        if inserted.isEmpty then empty_frame_with_schema (build_payload_schema params)
        else accumulate_frames (inserted.map fun x => x.2.2)
      chunk_seq_ids := [] }

/-- The accumulation loop of the unordered probe sub-protocol
(`equi_join.rs:751-817`) for one input morsel, abstracted over the external
`probe_subset`/gather collaborators: `hs` is the stream of heights of the
non-empty joined output frames produced across the per-partition loop (empty
`table_match` batches are skipped by the `continue`), `out_len` the
accumulated row count. Emissions are `(height, seq, token)` triples: every
emitted morsel is built as `Morsel::new(df, seq, src_token.clone())` from the
input morsel's `seq` and source token. Once `out_len` reaches `probe_limit`
the accumulated frames are drained into one emission and `out_len` resets to
`0`; a trailing emission flushes any remainder. -/
def probe_loop (probe_limit seq tok : Nat) :
    List Nat → Nat → List (Nat × Nat × Nat)
  | [], out_len => if 0 < out_len then [(out_len, seq, tok)] else []
  | h :: rest, out_len =>
    let out_len2 := out_len + h
    if probe_limit ≤ out_len2 then
      (out_len2, seq, tok) :: probe_loop probe_limit seq tok rest 0
    else
      probe_loop probe_limit seq tok rest out_len2

/-- Processing of one probe morsel by the unordered sub-protocol: `out_frames`
and `out_len` are declared afresh for each received morsel
(`equi_join.rs:751-752`), so the loop starts from `0`. -/
def probe_morsel_out (probe_limit seq tok : Nat) (hs : List Nat) :
    List (Nat × Nat × Nat) :=
  probe_loop probe_limit seq tok hs 0

/-- The whole unordered probe run of one worker (`equi_join.rs:664-822`,
unordered branch): each received morsel `(seq, hs)` is processed
independently, with no accumulated state carried across morsels. -/
def probe_all_out (probe_limit tok : Nat) (morsels : List (Nat × List Nat)) :
    List (Nat × Nat × Nat) :=
  morsels.flatMap fun m => probe_morsel_out probe_limit m.1 tok m.2

/-- Sort options (`SortMultipleOptions` of the external polars-core crate) as
constructed by the source; per the collaborator's contract the sort is stable
iff `maintain_order` is set. -/
structure SortMultipleOptions where
  descending : List Bool
  nulls_last : List Bool
  multithreaded : Bool
  maintain_order : Bool
  limit : Option Nat
deriving DecidableEq

/-- The sort options built by `ProbeState::ordered_unmatched`
(`equi_join.rs:872-878`). -/
def ordered_unmatched_sort_options : SortMultipleOptions :=
  { descending := [false]
    nulls_last := [false]
    multithreaded := true
    maintain_order := false
    limit := none }

/-- The tagging step of `ProbeState::ordered_unmatched` (`equi_join.rs:856-867`)
for one partition: each unmarked row, given by the external
`table.unmarked_keys` as a chunk-qualified index `(chunk, idx_in_chunk)`
paired with its gathered (build + null-other, abstract) row payload, receives
the auxiliary columns `__SEQ = chunk_seq_ids[chunk]` and `__IDX = idx_in_chunk`. -/
def tag_unmatched_rows (α : Type) (chunk_seq_ids : List Nat)
    (unmarked : List ((Nat × Nat) × α)) : List ((Nat × Nat) × α) :=
  unmarked.map fun r => ((chunk_seq_ids.getD r.1.1 0, r.1.2), r.2)

/-- The comparison realized by sorting on the two auxiliary columns
`(__SEQ, __IDX)` in ascending order. -/
def seq_idx_le (α : Type) (a b : (Nat × Nat) × α) : Prop :=
  a.1.1 < b.1.1 ∨ (a.1.1 = b.1.1 ∧ a.1.2 ≤ b.1.2)

instance seq_idx_le_dec (α : Type) : DecidableRel (seq_idx_le α) := fun a b => by
  unfold seq_idx_le; infer_instance

instance seq_idx_le_total (α : Type) : IsTotal ((Nat × Nat) × α) (seq_idx_le α) :=
  ⟨fun a b => by unfold seq_idx_le; omega⟩

instance seq_idx_le_trans (α : Type) : IsTrans ((Nat × Nat) × α) (seq_idx_le α) :=
  ⟨fun a b c hab hbc => by unfold seq_idx_le at hab hbc ⊢; omega⟩

/-- `ProbeState::ordered_unmatched` (`equi_join.rs:827-888`) at row level:
tag every partition's unmarked rows, vertically concatenate all partitions,
sort by `(__SEQ, __IDX)`, and drop the two auxiliary columns (the
`postprocess_join` call does not reorder rows). The source sorts with
`ordered_unmatched_sort_options` (multithreaded, not order-maintaining);
`insertionSort` here is one admissible result of that sort. -/
def ordered_unmatched_rows (α : Type)
    (parts : List (List Nat × List ((Nat × Nat) × α))) : List α :=
  ((List.insertionSort (seq_idx_le α)
      (parts.flatMap fun p => tag_unmatched_rows α p.1 p.2)).map Prod.snd)

/-- The inner batch loop of `EmitUnmatchedState::emit_unmatched`
(`equi_join.rs:927-967`) over one partition: each non-empty batch produced by
the external `table.unmarked_keys` (abstracted as the list of the constructed
output frames, of any type `α`) is sent as a morsel tagged with the current
`morsel_seq`, which then advances by `successor`. Returns the emissions and
the final `morsel_seq`. -/
def emit_partition_loop (α : Type) (batches : List α) (seq : Nat) :
    List (α × Nat) × Nat :=
  match batches with
  | [] => ([], seq)
  | b :: rest =>
    let r := emit_partition_loop α rest (seqSuccessor seq)
    ((b, seq) :: r.1, r.2)

/-- The outer partition walk of `EmitUnmatchedState::emit_unmatched`
(`equi_join.rs:926-971`): partitions are visited in order and `morsel_seq`
continues across partitions (only `offset_in_active_p` resets). -/
def emit_unmatched_loop (α : Type) (parts : List (List α)) (seq : Nat) :
    List (α × Nat) × Nat :=
  match parts with
  | [] => ([], seq)
  | p :: rest =>
    let r1 := emit_partition_loop α p seq
    let r2 := emit_unmatched_loop α rest r1.2
    (r1.1 ++ r2.1, r2.2)

/-- Build-phase state as observed by `update_state`: whether the replay
buffer of sampled probe morsels (`BuildState::sampled_probe_morsels`) is
empty. -/
structure BuildS where
  samples_empty : Bool
deriving DecidableEq

/-- Probe-phase state as observed by `update_state` (`ProbeState`,
`equi_join.rs:629-633`): the number of per-partition tables, the maximum
morsel sequence sent so far, and whether the replay buffer is empty. -/
structure ProbeS where
  num_partitions : Nat
  max_seq_sent : Nat
  samples_empty : Bool
deriving DecidableEq

/-- Emit-unmatched state as observed by `update_state`
(`EmitUnmatchedState`, `equi_join.rs:900-905`). -/
structure EmitS where
  num_partitions : Nat
  active_partition_idx : Nat
  offset_in_active_p : Nat
  morsel_seq : Nat
deriving DecidableEq

/-- The in-memory source collaborator (`InMemorySourceNode`) as observed
here: the first sequence number it will emit (its construction argument at
`equi_join.rs:1165-1168`). -/
structure InMemSrcS where
  start_seq : Nat
deriving DecidableEq

/-- The node's phase (`EquiJoinState`, `equi_join.rs:977-984`), with each
phase's payload reduced to the fields `update_state` reads. -/
inductive JoinState where
  | sample (s : SampleS)
  | build (b : BuildS)
  | probe (p : ProbeS)
  | emitUnmatchedBuild (e : EmitS)
  | emitUnmatchedBuildInOrder (src : InMemSrcS)
  | done
deriving DecidableEq

/-- `SampleState::try_transition_to_build` (`equi_join.rs:309-456`) reduced to
its decision: `none` while sampling continues, otherwise the chosen
`left_is_build`. The raw sketch estimates `lc_raw`, `rc_raw` are oracle
inputs (they are only computed on the paths that use them). -/
def sample_try_transition (s : SampleS) (recv0 recv1 : PortState)
    (sample_limit lc_raw rc_raw : Nat) : Option Bool :=
  if stop_sampling s recv0 recv1 sample_limit then
    some (left_is_build_decision s.left_len s.right_len lc_raw rc_raw sample_limit)
  else
    none

/-- `EquiJoinNode::update_state` (`equi_join.rs:1120-1252`) as a pure step
function on the observed state. `src_update` is the external
`InMemorySourceNode::update_state` collaborator, reporting the state of the
output port it drives. Returns the new state, parameters and the new
`(recv[0], recv[1], send[0])` port states. -/
def update_state (sample_limit num_pipelines lc_raw rc_raw : Nat)
    (src_update : InMemSrcS → PortState) (params : EquiJoinParams)
    (st : JoinState) (recv0 recv1 send0 : PortState) :
    JoinState × EquiJoinParams × PortState × PortState × PortState :=
  -- If the output doesn't want any more data, transition to being done.
  let st1 := if send0 = PortState.Done then JoinState.done else st
  -- If we are sampling and both sides are done/filled, transition to building.
  let step2 : JoinState × EquiJoinParams :=
    match st1 with
    | JoinState.sample s =>
      match sample_try_transition s recv0 recv1 sample_limit lc_raw rc_raw with
      | some lib =>
        (JoinState.build ⟨(if lib then s.right_nmorsels else s.left_nmorsels) = 0⟩,
          { params with left_is_build := some lib })
      | none => (st1, params)
    | _ => (st1, params)
  let st2 := step2.1
  let params2 := step2.2
  -- build_idx / probe_idx (`equi_join.rs:1140-1145`): build is port 0 iff
  -- `left_is_build == Some(true)`.
  let lb := params2.left_is_build = some true
  let recv_build := if lb then recv0 else recv1
  let recv_probe := if lb then recv1 else recv0
  -- If we are building and the build input is done, transition to probing.
  let st3 :=
    match st2 with
    | JoinState.build b =>
      if recv_build = PortState.Done then
        JoinState.probe ⟨num_pipelines, 0, b.samples_empty⟩
      else st2
    | _ => st2
  -- If we are probing and the probe input is done, emit unmatched if
  -- necessary, otherwise we're done.
  let st4 :=
    match st3 with
    | JoinState.probe p =>
      if p.samples_empty = true ∧ recv_probe = PortState.Done then
        if emit_unmatched_build params2 = true then
          if params2.preserve_order_build = true then
            JoinState.emitUnmatchedBuildInOrder ⟨seqSuccessor p.max_seq_sent⟩
          else
            JoinState.emitUnmatchedBuild ⟨p.num_partitions, 0, 0, seqSuccessor p.max_seq_sent⟩
        else JoinState.done
      else st3
    | _ => st3
  -- Finally, check if we are done emitting unmatched keys.
  let st5 :=
    match st4 with
    | JoinState.emitUnmatchedBuild e =>
      if e.num_partitions ≤ e.active_partition_idx then JoinState.done else st4
    | _ => st4
  match st5 with
  | JoinState.sample s =>
    let r0 :=
      if recv0 = PortState.Done then PortState.Done
      else if s.left_len < sample_limit then PortState.Ready else PortState.Blocked
    let r1 :=
      if recv1 = PortState.Done then PortState.Done
      else if s.right_len < sample_limit then PortState.Ready else PortState.Blocked
    (st5, params2, r0, r1, PortState.Blocked)
  | JoinState.build _ =>
    let rb := if recv_build = PortState.Done then PortState.Done else PortState.Ready
    let rp := if recv_probe = PortState.Done then PortState.Done else PortState.Blocked
    (st5, params2, if lb then rb else rp, if lb then rp else rb, PortState.Blocked)
  | JoinState.probe p =>
    if recv_probe ≠ PortState.Done then
      -- core::mem::swap(&mut send[0], &mut recv[probe_idx])
      (st5, params2, if lb then PortState.Done else send0,
        if lb then send0 else PortState.Done, recv_probe)
    else
      (st5, params2, if lb then PortState.Done else recv_probe,
        if lb then recv_probe else PortState.Done,
        if p.samples_empty then PortState.Done else PortState.Ready)
  | JoinState.emitUnmatchedBuild _ =>
    (st5, params2, PortState.Done, PortState.Done, PortState.Ready)
  | JoinState.emitUnmatchedBuildInOrder src =>
    let s0 := src_update src
    (if s0 = PortState.Done then JoinState.done else st5, params2,
      PortState.Done, PortState.Done, s0)
  | JoinState.done =>
    (JoinState.done, params2, PortState.Done, PortState.Done, PortState.Done)

/-- Default join arguments of the concrete scenarios: inner join, default
suffix `"_right"`, no coalescing, no order maintenance. -/
def default_join_args : JoinArgs :=
  { how := JoinType.Inner
    suffix := "_right"
    coalesce := false
    nulls_equal := false
    maintain_order := MaintainOrderJoin.None }

/-- A concrete parameter block for an inner join with the left side as build
side, used to instantiate universally quantified statements. -/
def params_inner_example : EquiJoinParams :=
  { left_is_build := some true
    preserve_order_build := false
    preserve_order_probe := false
    left_key_schema := ["k"]
    right_key_schema := ["k"]
    left_payload_select := [some "k", some "v"]
    right_payload_select := [some "k_right", some "v_right"]
    left_payload_schema := ["k", "v"]
    right_payload_schema := ["k_right", "v_right"]
    args := default_join_args }

/-- A concrete parameter block for a left join with the left side as build
side and build-side order preservation. -/
def params_ordered_example : EquiJoinParams :=
  { params_inner_example with
    preserve_order_build := true
    preserve_order_probe := true
    args := { default_join_args with
              how := JoinType.Left
              maintain_order := MaintainOrderJoin.LeftRight } }

/-- A concrete parameter block for a left join with the left side as build
side and no order preservation. -/
def params_left_example : EquiJoinParams :=
  { params_inner_example with
    args := { default_join_args with how := JoinType.Left } }

/-- Two concrete per-worker build buckets for one partition. -/
def results_example : List (BuildPartitionM Nat) :=
  [⟨[1], [(3, ⟨["k", "v"], 2⟩)]⟩,
   ⟨[2, 3], [(1, ⟨["k", "v"], 0⟩), (2, ⟨["k", "v"], 1⟩)]⟩]

theorem rat_mul_div_floor (a b c : Nat) :
    Int.toNat ⌊(a : ℚ) * ((b : ℚ) / (c : ℚ))⌋ = a * b / c := by
  rw [mul_div_assoc']
  rw [show ((a : ℚ) * b) = ((a * b : Nat) : ℚ) by push_cast; ring]
  rw [Int.floor_toNat, Nat.floor_div_nat, Nat.floor_natCast]

theorem norm_cardinality_eq_div (estimate len sample_limit : Nat) :
    norm_cardinality estimate len sample_limit = estimate * min len sample_limit / len := by
  unfold norm_cardinality norm_factor
  exact rat_mul_div_floor estimate (min len sample_limit) len

theorem claimed_norm_cardinality_eq_div (estimate len sample_limit : Nat) :
    claimed_norm_cardinality estimate len sample_limit = estimate * len / min len sample_limit := by
  unfold claimed_norm_cardinality
  exact rat_mul_div_floor estimate len (min len sample_limit)

/-- C2, counterexample. The source computes
`estimate × (min(true_len, SAMPLE_LIMIT) / true_len)` — a scale-DOWN factor —
not the claimed `estimate × (true_len / min(true_len, SAMPLE_LIMIT))`: for a
buffered length of 20 with `SAMPLE_LIMIT = 10` and sketch estimate 6, the
code yields 3 while the claimed formula yields 12. -/
theorem c2_norm_cardinality_counterexample :
    norm_cardinality 6 20 10 = 3 ∧ claimed_norm_cardinality 6 20 10 = 12 ∧
      norm_cardinality 6 20 10 ≠ claimed_norm_cardinality 6 20 10 := by
  rw [norm_cardinality_eq_div, claimed_norm_cardinality_eq_div]
  refine ⟨rfl, rfl, by decide⟩

/-- C2, amended: the normalized cardinality estimate equals
`estimate × (min(n, SAMPLE_LIMIT) / n)` (rounded towards zero), which never
exceeds the raw estimate and equals it exactly when `n ≤ SAMPLE_LIMIT` — the
raw sketch estimate is scaled DOWN when `n` exceeds `SAMPLE_LIMIT`, not up. -/
theorem c2_norm_cardinality_scales_down (estimate len sample_limit : Nat)
    (hlen : 0 < len) :
    norm_cardinality estimate len sample_limit ≤ estimate ∧
      (len ≤ sample_limit → norm_cardinality estimate len sample_limit = estimate) := by
  rw [norm_cardinality_eq_div]
  constructor
  · calc estimate * min len sample_limit / len ≤ estimate * len / len :=
          Nat.div_le_div_right (Nat.mul_le_mul_left _ (Nat.min_le_left _ _))
      _ = estimate := Nat.mul_div_cancel estimate hlen
  · intro h
    rw [Nat.min_eq_left h, Nat.mul_div_cancel estimate hlen]

/-- C2, witness for the amended theorem at a concrete input. -/
theorem c2_norm_cardinality_scales_down_witness :
    (0 < 20) ∧ (norm_cardinality 7 20 100 ≤ 7 ∧
      (20 ≤ 100 → norm_cardinality 7 20 100 = 7)) :=
  ⟨by decide, c2_norm_cardinality_scales_down 7 20 100 (by decide)⟩

/-- C10: whenever the join is not a coalescing `Full` join, `postprocess_join`
returns its input dataframe unchanged. -/
theorem c10_postprocess_join_identity (α : Type) [Inhabited α] (cf : α → α → α)
    (df : List (PlSmallStr × α)) (params : EquiJoinParams)
    (h : ¬(params.args.how = JoinType.Full ∧ params.args.should_coalesce = true)) :
    postprocess_join α cf df params = df := by
  unfold postprocess_join
  rw [if_neg h]

/-- C10, witness at a concrete input. -/
theorem c10_postprocess_join_identity_witness :
    (¬(params_inner_example.args.how = JoinType.Full ∧
        params_inner_example.args.should_coalesce = true)) ∧
      postprocess_join Nat (fun a _ => a) [("k", 5)] params_inner_example = [("k", 5)] :=
  ⟨by decide, c10_postprocess_join_identity Nat (fun a _ => a) [("k", 5)]
    params_inner_example (by decide)⟩

theorem buffered_stream_new_seqs (α : Type) (morsels : List α) :
    ∀ start : Nat,
      (buffered_stream_new α morsels start).1.map Prod.snd =
          List.range' start morsels.length ∧
        (buffered_stream_new α morsels start).2 = start + morsels.length := by
  induction morsels with
  | nil => intro start; simp [buffered_stream_new]
  | cons m rest ih =>
    intro start
    have h := ih (seqSuccessor start)
    simp only [buffered_stream_new, List.map_cons, List.length_cons, List.range'_succ,
      seqSuccessor] at h ⊢
    exact ⟨by rw [h.1], by rw [h.2]; omega⟩

/-- C8: `BufferedStream::new` relabels the buffered morsels consecutively
from `start_offset`, records `post_buffer_offset` as the successor of the
last buffered sequence (`start + n`), and every morsel later forwarded from
the downstream port is re-offset by `post_buffer_offset`, so every buffered
sequence number is strictly below every forwarded downstream sequence
number. -/
theorem c8_buffered_stream_seq_partition (α : Type) (morsels : List α)
    (start : Nat) :
    (buffered_stream_new α morsels start).1.map Prod.snd =
        List.range' start morsels.length ∧
      (buffered_stream_new α morsels start).2 = start + morsels.length ∧
      ∀ x ∈ (buffered_stream_new α morsels start).1, ∀ d : Nat,
        x.2 < reinsert_downstream_seq (buffered_stream_new α morsels start).2 d := by
  obtain ⟨h1, h2⟩ := buffered_stream_new_seqs α morsels start
  refine ⟨h1, h2, ?_⟩
  intro x hx d
  have hmem : x.2 ∈ (buffered_stream_new α morsels start).1.map Prod.snd :=
    List.mem_map_of_mem Prod.snd hx
  rw [h1, List.mem_range'] at hmem
  obtain ⟨i, hi, hxeq⟩ := hmem
  rw [h2]
  unfold reinsert_downstream_seq seqOffsetBy
  omega

/-- C8, witness at a concrete input. -/
theorem c8_buffered_stream_seq_partition_witness :
    (("a", (3 : Nat)) ∈ (buffered_stream_new String ["a", "b"] 3).1) ∧
      (3 : Nat) < reinsert_downstream_seq (buffered_stream_new String ["a", "b"] 3).2 0 :=
  ⟨by decide, (c8_buffered_stream_seq_partition String ["a", "b"] 3).2.2
    ("a", 3) (by decide) 0⟩

theorem probe_loop_tags (probe_limit seq tok : Nat) (hs : List Nat) :
    ∀ out_len : Nat, ∀ x ∈ probe_loop probe_limit seq tok hs out_len,
      x.2.1 = seq ∧ x.2.2 = tok := by
  induction hs with
  | nil =>
    intro out_len x hx
    by_cases h : 0 < out_len
    · simp [probe_loop, h] at hx
      simp [hx]
    · simp [probe_loop, h] at hx
  | cons h rest ih =>
    intro out_len x hx
    by_cases hc : probe_limit ≤ out_len + h
    · simp only [probe_loop, if_pos hc, List.mem_cons] at hx
      rcases hx with hx | hx
      · simp [hx]
      · exact ih 0 x hx
    · simp only [probe_loop, if_neg hc] at hx
      exact ih (out_len + h) x hx

theorem probe_loop_sum (probe_limit seq tok : Nat) (hs : List Nat) :
    ∀ out_len : Nat,
      ((probe_loop probe_limit seq tok hs out_len).map fun x => x.1).sum =
        out_len + hs.sum := by
  induction hs with
  | nil =>
    intro out_len
    by_cases h : 0 < out_len
    · simp [probe_loop, h]
    · simp [probe_loop, h]; omega
  | cons h rest ih =>
    intro out_len
    by_cases hc : probe_limit ≤ out_len + h
    · simp only [probe_loop, if_pos hc, List.map_cons, List.sum_cons, ih 0]
      omega
    · simp only [probe_loop, if_neg hc, ih (out_len + h), List.sum_cons]
      omega

/-- C5: in the unordered probe sub-protocol, every morsel emitted while
processing one input probe morsel carries that morsel's `seq` and the shared
source token (both the threshold emissions and the final flush), the emitted
heights sum to exactly the rows produced for that morsel (everything
accumulated is flushed by morsel end, nothing is retained), and over a whole
run the output decomposes morsel by morsel, so no accumulated output rows
carry over from one input morsel to the next. -/
theorem c5_unordered_probe_flush (probe_limit seq tok : Nat) (hs : List Nat)
    (morsels : List (Nat × List Nat)) :
    (∀ x ∈ probe_morsel_out probe_limit seq tok hs, x.2.1 = seq ∧ x.2.2 = tok) ∧
      ((probe_morsel_out probe_limit seq tok hs).map fun x => x.1).sum = hs.sum ∧
      ((probe_all_out probe_limit tok morsels).map fun x => x.1).sum =
        (morsels.map fun m => m.2.sum).sum := by
  refine ⟨probe_loop_tags probe_limit seq tok hs 0, ?_, ?_⟩
  · have h := probe_loop_sum probe_limit seq tok hs 0
    simpa [probe_morsel_out] using h
  · induction morsels with
    | nil => simp [probe_all_out]
    | cons m rest ih =>
      simp only [probe_all_out, List.flatMap_cons, List.map_append, List.sum_append,
        List.map_cons, List.sum_cons] at ih ⊢
      rw [ih]
      have h := probe_loop_sum probe_limit m.1 tok m.2 0
      simp only [probe_morsel_out, h, Nat.zero_add]

/-- C5, witness: a concrete morsel with heights `[3,4,2]` under
`probe_limit = 5` triggers one threshold emission of 7 rows and one final
flush of 2 rows, both tagged with the morsel's `seq = 7` and token `9`. -/
theorem c5_unordered_probe_flush_witness :
    ((7, 7, 9) ∈ probe_morsel_out 5 7 9 [3, 4, 2]) ∧
      ((7, 7, 9) : Nat × Nat × Nat).2.1 = 7 ∧ ((7, 7, 9) : Nat × Nat × Nat).2.2 = 9 :=
  ⟨by decide, (c5_unordered_probe_flush 5 7 9 [3, 4, 2] []).1 (7, 7, 9) (by decide)⟩

/-- C3: the build-side choice. With `L`, `R` the sampled row counts, `cL`,
`cR` the normalized cardinality estimates and `F = LOPSIDED_SAMPLE_FACTOR = 10`:
when neither side is saturated and neither length exceeds `F` times the
other, left builds iff `3·L + 3·cL + R < 3·R + 3·cR + L`; when neither side
is saturated but one length exceeds `F` times the other, the smaller side is
chosen (no cardinality estimation happens on this path); when exactly one
side is saturated the unsaturated side is chosen; when both are saturated
the side with the smaller normalized cardinality estimate is chosen. -/
theorem c3_build_side_decision (left_len right_len lc_raw rc_raw sample_limit : Nat) :
    (left_len < sample_limit → right_len < sample_limit →
      right_len ≤ LOPSIDED_SAMPLE_FACTOR * left_len →
      left_len ≤ LOPSIDED_SAMPLE_FACTOR * right_len →
      (left_is_build_decision left_len right_len lc_raw rc_raw sample_limit = true ↔
        3 * left_len + 3 * norm_cardinality lc_raw left_len sample_limit + right_len <
          3 * right_len + 3 * norm_cardinality rc_raw right_len sample_limit + left_len)) ∧
    (left_len < sample_limit → right_len < sample_limit →
      (LOPSIDED_SAMPLE_FACTOR * left_len < right_len ∨
        LOPSIDED_SAMPLE_FACTOR * right_len < left_len) →
      (left_is_build_decision left_len right_len lc_raw rc_raw sample_limit = true ↔
        left_len < right_len)) ∧
    (left_len < sample_limit → sample_limit ≤ right_len →
      left_is_build_decision left_len right_len lc_raw rc_raw sample_limit = true) ∧
    (sample_limit ≤ left_len → right_len < sample_limit →
      left_is_build_decision left_len right_len lc_raw rc_raw sample_limit = false) ∧
    (sample_limit ≤ left_len → sample_limit ≤ right_len →
      (left_is_build_decision left_len right_len lc_raw rc_raw sample_limit = true ↔
        norm_cardinality lc_raw left_len sample_limit <
          norm_cardinality rc_raw right_len sample_limit)) := by
  unfold left_is_build_decision LOPSIDED_SAMPLE_FACTOR
  refine ⟨?_, ?_, ?_, ?_, ?_⟩
  · intro hl hr hlop1 hlop2
    rw [if_pos ⟨by omega, by omega⟩, if_neg (by omega)]
    simp only [decide_eq_true_eq]
    omega
  · intro hl hr hlop
    rw [if_pos ⟨by omega, by omega⟩, if_pos (by omega)]
    simp only [decide_eq_true_eq]
  · intro hl hr
    rw [if_neg (by omega), if_pos ⟨by omega, by omega⟩]
  · intro hl hr
    rw [if_neg (by omega), if_neg (by omega), if_pos ⟨by omega, by omega⟩]
  · intro hl hr
    rw [if_neg (by omega), if_neg (by omega), if_neg (by omega)]
    simp only [decide_eq_true_eq]

/-- C3, witness: an unsaturated, non-lopsided instance of the cost-model
case. -/
theorem c3_build_side_decision_witness :
    ((5 : Nat) < 10 ∧ (6 : Nat) < 10 ∧ (6 : Nat) ≤ LOPSIDED_SAMPLE_FACTOR * 5 ∧
      (5 : Nat) ≤ LOPSIDED_SAMPLE_FACTOR * 6) ∧
    (left_is_build_decision 5 6 2 3 10 = true ↔
      3 * 5 + 3 * norm_cardinality 2 5 10 + 6 < 3 * 6 + 3 * norm_cardinality 3 6 10 + 5) :=
  ⟨⟨by decide, by decide, by decide, by decide⟩,
    (c3_build_side_decision 5 6 2 3 10).1 (by decide) (by decide) (by decide) (by decide)⟩

/-- C9: if the output port reports `Done` at the start of a state update the
node transitions to `Done` immediately, and `Done` is absorbing: in either
case the update leaves the parameters untouched, reports `Done` on all three
ports, and remains in `Done` (so no phase that could emit morsels is ever
entered again). -/
theorem c9_output_done_transitions_to_done (sample_limit num_pipelines lc_raw rc_raw : Nat)
    (src_update : InMemSrcS → PortState) (params : EquiJoinParams) (st : JoinState)
    (recv0 recv1 send0 : PortState)
    (h : send0 = PortState.Done ∨ st = JoinState.done) :
    update_state sample_limit num_pipelines lc_raw rc_raw src_update params st
        recv0 recv1 send0 =
      (JoinState.done, params, PortState.Done, PortState.Done, PortState.Done) := by
  rcases h with h | h
  · subst h
    simp [update_state]
  · subst h
    simp [update_state]

/-- C9, witness at a concrete input (the node already in `Done`, output port
still `Ready`). -/
theorem c9_output_done_transitions_to_done_witness :
    (PortState.Ready = PortState.Done ∨ JoinState.done = JoinState.done) ∧
      update_state 10 2 0 0 (fun _ => PortState.Ready) params_inner_example
          JoinState.done PortState.Ready PortState.Ready PortState.Ready =
        (JoinState.done, params_inner_example, PortState.Done, PortState.Done,
          PortState.Done) :=
  ⟨Or.inr rfl,
    c9_output_done_transitions_to_done 10 2 0 0 (fun _ => PortState.Ready)
      params_inner_example JoinState.done PortState.Ready PortState.Ready
      PortState.Ready (Or.inr rfl)⟩

theorem emit_partition_loop_seqs (α : Type) (batches : List α) :
    ∀ seq : Nat,
      (emit_partition_loop α batches seq).1.map Prod.snd =
          List.range' seq batches.length ∧
        (emit_partition_loop α batches seq).2 = seq + batches.length := by
  induction batches with
  | nil => intro seq; simp [emit_partition_loop]
  | cons b rest ih =>
    intro seq
    have h := ih (seqSuccessor seq)
    simp only [emit_partition_loop, List.map_cons, List.length_cons, List.range'_succ,
      seqSuccessor] at h ⊢
    exact ⟨by rw [h.1], by rw [h.2]; omega⟩

theorem emit_unmatched_loop_seqs (α : Type) (parts : List (List α)) :
    ∀ seq : Nat,
      (emit_unmatched_loop α parts seq).1.map Prod.snd =
          List.range' seq ((parts.map List.length).sum) ∧
        (emit_unmatched_loop α parts seq).2 = seq + (parts.map List.length).sum := by
  induction parts with
  | nil => intro seq; simp [emit_unmatched_loop]
  | cons p rest ih =>
    intro seq
    obtain ⟨hp1, hp2⟩ := emit_partition_loop_seqs α p seq
    obtain ⟨hr1, hr2⟩ := ih (seq + p.length)
    have happ := List.range'_append seq p.length ((rest.map List.length).sum) 1
    simp only [one_mul] at happ
    simp only [emit_unmatched_loop, List.map_append, List.map_cons, List.sum_cons]
    constructor
    · rw [hp1, hp2, hr1, happ, Nat.add_comm]
    · rw [hp2, hr2]
      omega

/-- C4: the unmatched-build phase allocates fresh sequence numbers: starting
from `max_seq_sent + 1` the emitted morsels carry exactly the consecutive
sequences `max_seq_sent + 1, max_seq_sent + 2, ...` (across partition
boundaries), hence every unmatched-build output sequence is strictly greater
than every probe-output sequence (all of which are at most `max_seq_sent`);
and the `Probe → EmitUnmatched` transition of `update_state` seeds the
unordered emitter's `morsel_seq` — respectively the order-preserving
variant's in-memory source — with `max_seq_sent + 1`. -/
theorem c4_emit_unmatched_fresh_seqs (α : Type) (parts : List (List α))
    (max_seq_sent : Nat) (probe_seqs : List Nat)
    (sample_limit num_pipelines lc_raw rc_raw : Nat)
    (src_update : InMemSrcS → PortState) (params : EquiJoinParams) (p : ProbeS)
    (recv0 recv1 send0 : PortState) :
    ((emit_unmatched_loop α parts (seqSuccessor max_seq_sent)).1.map Prod.snd =
        List.range' (seqSuccessor max_seq_sent) ((parts.map List.length).sum)) ∧
    ((∀ q ∈ probe_seqs, q ≤ max_seq_sent) →
      ∀ x ∈ (emit_unmatched_loop α parts (seqSuccessor max_seq_sent)).1,
        ∀ q ∈ probe_seqs, q < x.2) ∧
    (send0 ≠ PortState.Done → p.samples_empty = true →
      (if params.left_is_build = some true then recv1 else recv0) = PortState.Done →
      emit_unmatched_build params = true → 0 < p.num_partitions →
      src_update ⟨seqSuccessor p.max_seq_sent⟩ ≠ PortState.Done →
      (update_state sample_limit num_pipelines lc_raw rc_raw src_update params
          (JoinState.probe p) recv0 recv1 send0).1 =
        if params.preserve_order_build = true then
          JoinState.emitUnmatchedBuildInOrder ⟨seqSuccessor p.max_seq_sent⟩
        else
          JoinState.emitUnmatchedBuild
            ⟨p.num_partitions, 0, 0, seqSuccessor p.max_seq_sent⟩) := by
  obtain ⟨h1, h2⟩ := emit_unmatched_loop_seqs α parts (seqSuccessor max_seq_sent)
  refine ⟨h1, ?_, ?_⟩
  · intro hprobe x hx q hq
    have hmem : x.2 ∈ (emit_unmatched_loop α parts (seqSuccessor max_seq_sent)).1.map
        Prod.snd := List.mem_map_of_mem Prod.snd hx
    rw [h1, List.mem_range'] at hmem
    obtain ⟨i, hi, hxeq⟩ := hmem
    have := hprobe q hq
    simp only [seqSuccessor] at hxeq
    omega
  · intro hsend hsam hrecv hemit hnum hsrc
    have hne : p.num_partitions ≠ 0 := by omega
    by_cases hpo : params.preserve_order_build = true
    · simp [update_state, hsend, hsam, hrecv, hemit, hpo, hsrc]
    · simp [update_state, hsend, hsam, hrecv, hemit, hpo, hsrc, Nat.le_zero, hne]

/-- C4, witness: two partitions with batch counts 1 and 2, probe sequences
`[2, 5]`, `max_seq_sent = 5`, plus a concrete `Probe → EmitUnmatchedBuild`
transition. -/
theorem c4_emit_unmatched_fresh_seqs_witness :
    ((5 : Nat) < ((10, 6) : Nat × Nat).2) ∧
      (update_state 10 2 0 0 (fun _ => PortState.Ready) params_left_example
          (JoinState.probe ⟨2, 5, true⟩) PortState.Done PortState.Done
          PortState.Ready).1 =
        (if params_left_example.preserve_order_build = true then
          JoinState.emitUnmatchedBuildInOrder ⟨seqSuccessor 5⟩
        else
          JoinState.emitUnmatchedBuild ⟨2, 0, 0, seqSuccessor 5⟩) :=
  ⟨(c4_emit_unmatched_fresh_seqs Nat [[10], [20, 30]] 5 [2, 5] 10 2 0 0
      (fun _ => PortState.Ready) params_left_example ⟨2, 5, true⟩ PortState.Done
      PortState.Done PortState.Ready).2.1 (by decide) (10, 6) (by decide) 5 (by decide),
    (c4_emit_unmatched_fresh_seqs Nat [[10], [20, 30]] 5 [2, 5] 10 2 0 0
      (fun _ => PortState.Ready) params_left_example ⟨2, 5, true⟩ PortState.Done
      PortState.Done PortState.Ready).2.2 (by decide) (by decide) (by decide)
      (by decide) (by decide) (by decide)⟩

/-- C6: in every finalized partition, zero-height frames are neither inserted
into the index table nor appended to the combined frames (insertions and
appended frames stay aligned); when `preserve_order_build` is set, the
gathered `(seq, hash_keys, frame)` triples are inserted in order sorted by
`seq` (so the recorded `chunk_seq_ids` ascend); and when no frame was
inserted, the partition's `df` is an empty dataframe carrying the build-side
payload schema. -/
theorem c6_finalize_partition_invariants (κ : Type) (params : EquiJoinParams)
    (results : List (BuildPartitionM κ)) :
    (∀ f ∈ (finalize_partition κ params results).combined_frames, f.height ≠ 0) ∧
    (finalize_partition κ params results).inserted_keys.length =
      (finalize_partition κ params results).combined_frames.length ∧
    (params.preserve_order_build = true →
      (finalize_partition κ params results).chunk_seq_ids.Pairwise (· ≤ ·)) ∧
    ((finalize_partition κ params results).combined_frames = [] →
      (finalize_partition κ params results).df =
        empty_frame_with_schema (build_payload_schema params)) := by
  unfold finalize_partition
  by_cases hpo : params.preserve_order_build = true
  · rw [if_pos hpo]
    dsimp only
    refine ⟨?_, by simp, ?_, ?_⟩
    · intro f hf
      simp only [List.mem_map, List.mem_filter, bne_iff_ne, ne_eq] at hf
      obtain ⟨t, ⟨_, hpred⟩, rfl⟩ := hf
      exact hpred
    · intro _
      have hs := List.sorted_insertionSort (seq_key_le κ)
        (results.flatMap fun r => (r.hash_keys.zip r.frames).map fun x => (x.2.1, x.1, x.2.2))
      have hfilt := hs.filter fun t => t.2.2.height != 0
      rw [List.pairwise_map]
      exact hfilt.imp fun h => h
    · intro hempty
      rw [List.map_eq_nil_iff] at hempty
      simp [hempty]
  · rw [if_neg hpo]
    dsimp only
    refine ⟨?_, by simp, fun h => absurd h hpo, ?_⟩
    · intro f hf
      simp only [List.mem_map, List.mem_filter, bne_iff_ne, ne_eq] at hf
      obtain ⟨t, ⟨_, hpred⟩, rfl⟩ := hf
      exact hpred
    · intro hempty
      rw [List.map_eq_nil_iff] at hempty
      simp [hempty]

/-- C6, witness: a concrete ordered partition with one zero-height frame
(skipped), plus an empty partition whose `df` carries the build payload
schema. -/
theorem c6_finalize_partition_invariants_witness :
    ((⟨["k", "v"], 1⟩ : Frame).height ≠ 0) ∧
      ((params_ordered_example.preserve_order_build = true) ∧
        (finalize_partition Nat params_ordered_example results_example).chunk_seq_ids.Pairwise
          (· ≤ ·)) ∧
      (finalize_partition Nat params_ordered_example []).df =
        empty_frame_with_schema (build_payload_schema params_ordered_example) :=
  ⟨(c6_finalize_partition_invariants Nat params_ordered_example results_example).1
      ⟨["k", "v"], 1⟩ (by decide),
    ⟨by decide,
      (c6_finalize_partition_invariants Nat params_ordered_example results_example).2.2.1
        (by decide)⟩,
    (c6_finalize_partition_invariants Nat params_ordered_example []).2.2.2 (by decide)⟩

/-- C7, counterexample to the claim as stated: the claim (with the spec)
says the concatenated unmatched-build rows are STABLY sorted by
`(__SEQ, __IDX)`, but the source's sort call requests a multithreaded sort
with `maintain_order: false` — under the sort collaborator's contract the
sort is stable only when `maintain_order` is set, so no stability is
guaranteed for rows with equal `(__SEQ, __IDX)` keys (which can arise across
partitions). Contrast with the ordered probe path (`equi_join.rs:731-737`),
which passes `multithreaded: false, maintain_order: true`. -/
theorem c7_ordered_unmatched_sort_not_stable :
    ordered_unmatched_sort_options.maintain_order = false ∧
      ordered_unmatched_sort_options.multithreaded = true := ⟨rfl, rfl⟩

/-- C7, amended: each unmatched row is tagged with `__SEQ =
chunk_seq_ids[chunk]` and `__IDX = idx_in_chunk`, the vertically concatenated
result of all partitions is sorted (multithreaded, NOT order-maintaining —
ties may land in any order) by `(__SEQ, __IDX)`, and the auxiliary columns
are dropped, so the output rows are a permutation of all tagged unmatched
rows appearing in ascending `(origin seq, index in chunk)` order. -/
theorem c7_ordered_unmatched_sorted (α : Type)
    (parts : List (List Nat × List ((Nat × Nat) × α))) :
    (List.insertionSort (seq_idx_le α)
        (parts.flatMap fun p => tag_unmatched_rows α p.1 p.2)).Pairwise (seq_idx_le α) ∧
      (List.insertionSort (seq_idx_le α)
          (parts.flatMap fun p => tag_unmatched_rows α p.1 p.2)).Perm
        (parts.flatMap fun p => tag_unmatched_rows α p.1 p.2) ∧
      ordered_unmatched_rows α parts =
        (List.insertionSort (seq_idx_le α)
            (parts.flatMap fun p => tag_unmatched_rows α p.1 p.2)).map Prod.snd :=
  ⟨List.sorted_insertionSort (seq_idx_le α) _,
    List.perm_insertionSort (seq_idx_le α) _, rfl⟩

theorem cps_col_left_ok (other this_key_schema : Schema) (args : JoinArgs)
    (c : PlSmallStr) (i : Nat) :
    ∃ v, cps_col other this_key_schema true args c i = .ok v := by
  unfold cps_col
  split
  · split
    · exact ⟨_, rfl⟩
    · split
      · exact ⟨_, rfl⟩
      · exact ⟨_, rfl⟩
  · simp

theorem cps_go_left_ok (other this_key_schema : Schema) (args : JoinArgs)
    (cols : List PlSmallStr) :
    ∀ i : Nat, ∃ l, cps_go other this_key_schema true args cols i = .ok l := by
  induction cols with
  | nil => intro i; exact ⟨[], rfl⟩
  | cons c rest ih =>
    intro i
    obtain ⟨v, hv⟩ := cps_col_left_ok other this_key_schema args c i
    obtain ⟨l, hl⟩ := ih (i + 1)
    exact ⟨v :: l, by simp [cps_go, hv, hl]⟩

theorem cps_col_duplicate (other this_key_schema : Schema) (args : JoinArgs)
    (c : PlSmallStr) (i : Nat) (hco : args.coalesce = false)
    (hc : other.contains c = true)
    (hsuf : other.contains (c ++ args.suffix) = true) :
    cps_col other this_key_schema false args c i =
      .error (PolarsError.Duplicate (c ++ args.suffix)) := by
  have hc' : c ∈ other := by simpa using hc
  have hsuf' : c ++ args.suffix ∈ other := by simpa using hsuf
  simp [cps_col, JoinArgs.should_coalesce, hco, hc', hsuf']

theorem cps_go_duplicate (other this_key_schema : Schema) (args : JoinArgs)
    (hco : args.coalesce = false) (cols : List PlSmallStr) :
    ∀ i : Nat,
      (∃ c ∈ cols, other.contains c = true ∧
        other.contains (c ++ args.suffix) = true) →
      ∃ s, cps_go other this_key_schema false args cols i =
        .error (PolarsError.Duplicate s) := by
  induction cols with
  | nil => intro i h; simp at h
  | cons c' rest ih =>
    intro i h
    cases hcol : cps_col other this_key_schema false args c' i with
    | error e =>
      cases e with
      | Duplicate s => exact ⟨s, by simp [cps_go, hcol]⟩
    | ok sel =>
      obtain ⟨c, hcmem, hc1, hc2⟩ := h
      rcases List.mem_cons.mp hcmem with rfl | hcrest
      · rw [cps_col_duplicate other this_key_schema args c i hco hc1 hc2] at hcol
        exact absurd hcol (by simp)
      · obtain ⟨s, hs⟩ := ih (i + 1) ⟨c, hcrest, hc1, hc2⟩
        exact ⟨s, by simp [cps_go, hcol, hs]⟩

/-- C1, counterexample to the claim as stated. The claim (with the spec)
says construction fails with a `Duplicate` error when the suffixed name of a
right-hand column already exists on the RIGHT input schema, and in
particular for left `(k,v)`, right `(k,v,v_right)`, suffix `"_right"`,
non-coalescing join. But `compute_payload_selector` checks the suffixed name
only against the OTHER (left) schema (`equi_join.rs:68`), so this
construction succeeds (producing a right payload with two columns named
`v_right`). -/
theorem c1_right_self_collision_not_detected :
    (equi_join_node_new ["k", "v"] ["k", "v", "v_right"] ["k"] ["k"]
        default_join_args 10000000).isOk = true := by decide

/-- C1, amended: construction returns a `Duplicate` error when the suffixed
name of a right-hand (non-coalesced) column that also exists on the left
already exists on the LEFT input schema; in particular, for left schema
`(k, v, v_right)`, right schema `(k, v)`, default suffix `"_right"` and a
non-coalescing join, construction fails with the duplicate-column error
(while the mirrored case of the original claim succeeds, see the
counterexample). -/
theorem c1_duplicate_on_left_collision (left_input right_input lkey rkey : Schema)
    (args : JoinArgs) (sample_limit : Nat) (c : PlSmallStr)
    (hco : args.coalesce = false) (hc : c ∈ right_input)
    (hleft : left_input.contains c = true)
    (hsuf : left_input.contains (c ++ args.suffix) = true) :
    ∃ s, equi_join_node_new left_input right_input lkey rkey args sample_limit =
      .error (PolarsError.Duplicate s) := by
  obtain ⟨l, hl⟩ := cps_go_left_ok right_input lkey args left_input 0
  obtain ⟨s, hs⟩ := cps_go_duplicate left_input rkey args hco right_input 0
    ⟨c, hc, hleft, hsuf⟩
  exact ⟨s, by simp only [equi_join_node_new, compute_payload_selector, hl, hs]⟩

/-- C1, witness for the amended theorem: the mirrored concrete scenario. -/
theorem c1_duplicate_on_left_collision_witness :
    (default_join_args.coalesce = false ∧ ("v" : PlSmallStr) ∈ (["k", "v"] : Schema) ∧
      (["k", "v", "v_right"] : Schema).contains "v" = true ∧
      (["k", "v", "v_right"] : Schema).contains ("v" ++ default_join_args.suffix) = true) ∧
    ∃ s, equi_join_node_new ["k", "v", "v_right"] ["k", "v"] ["k"] ["k"]
        default_join_args 10000000 = .error (PolarsError.Duplicate s) :=
  ⟨⟨by decide, by decide, by decide, by decide⟩,
    c1_duplicate_on_left_collision ["k", "v", "v_right"] ["k", "v"] ["k"] ["k"]
      default_join_args 10000000 "v" (by decide) (by decide) (by decide) (by decide)⟩
